import Mathlib

/-!
Shallow embedding of `packages/valory/contracts/conditional_tokens/contract.py`
(the `ConditionalTokensContract` class).

External collaborators (the web3 ledger API: keccak hashing, ABI encoding,
contract calls, checksumming) are modelled as explicit function parameters or
abstract outcomes; everything the Python module itself computes (partition
generation, the timeout-executor result shape, the payout fold, the holdings
loop, argument assembly for `encodeABI`) is translated directly from the source.
Python `bytes` values are byte lists (`List Nat`), Python `int` is `Int`
(or `Nat` where the value is a bit mask produced by `1 << x`).
-/

namespace ConditionalTokens

/-! ## Hex encoding (Python `bytes.hex()` / `bytes.fromhex`) -/

/-- Lower-case hex digit for a value `< 16`, as produced by Python `bytes.hex()`. -/
def hexDigit (n : Nat) : Char :=
  if n < 10 then Char.ofNat (48 + n) else Char.ofNat (87 + n)

/-- Two-digit lower-case hex rendering of one byte. -/
def byteToHex (b : Nat) : String :=
  String.mk [hexDigit (b / 16 % 16), hexDigit (b % 16)]

/-- Python `bytes.hex()`: lower-case hex, two characters per byte, no prefix. -/
def bytesHex (bs : List Nat) : String :=
  String.join (bs.map byteToHex)

/-- Value of one hex character, `none` when the character is not a hex digit
(Python `bytes.fromhex` raises `ValueError`). -/
def hexCharVal (c : Char) : Option Nat :=
  if 48 ≤ c.toNat ∧ c.toNat ≤ 57 then some (c.toNat - 48)
  else if 97 ≤ c.toNat ∧ c.toNat ≤ 102 then some (c.toNat - 87)
  else if 65 ≤ c.toNat ∧ c.toNat ≤ 70 then some (c.toNat - 55)
  else none

/-- Python `bytes.fromhex` over a character list: consumes the characters in
pairs, failing on an odd-length or non-hex input. -/
def hexPairs : List Char → Option (List Nat)
  | [] => some []
  | [_] => none
  | c1 :: c2 :: rest => do
      let h1 ← hexCharVal c1
      let h2 ← hexCharVal c2
      let tail ← hexPairs rest
      return (16 * h1 + h2) :: tail

/-! ## `get_partitions` (contract.py lines 336-339)

`return list(map(lambda x: 1 << x, range(count)))`.
Python `range(count)` is empty for `count <= 0`, so the count is an `Int` and
the iteration space is `count.toNat`. -/

/-- `ConditionalTokensContract.get_partitions`. -/
def get_partitions (count : Int) : List Nat :=
  (List.range count.toNat).map (fun x => 1 <<< x)

/-! ## `execute_with_timeout` (contract.py lines 42-66)

The submitted callable is modelled by the outcome each successive invocation
would have: `op k` is what the `k`-th submission of the callable would do.
The executor submits the callable exactly once (`executor.submit(func)`), so
only `op 0` is consulted; the returned `calls` field records how many
submissions were made.  A Python value is either a string (`isinstance(data,
str)` — treated as an error message) or some non-string payload. -/

/-- A `conditionId` value found in a log entry: raw bytes (hex-encoded before
use as a key) or an already-string key. -/
inductive CondKey where
  | bytes (b : List Nat)
  | str (s : String)
  deriving DecidableEq, Repr

/-- One `PayoutRedemption` log entry, as consumed by the fold in
`check_redeemed`: `entry.get("args", {}).get("conditionId", None)` (a bytes or
string key, or absent) and `.get("payout", 0)`. -/
structure RedeemEntry where
  conditionId : Option CondKey
  payout : Int
  deriving DecidableEq, Repr

/-- A value produced by a callable handed to the executor: a string, a list of
redemption event entries, or an integer payload. -/
inductive PyVal where
  | str (s : String)
  | entries (es : List RedeemEntry)
  | int (n : Int)
  deriving DecidableEq, Repr

/-- Whether a Python value is a string (`isinstance(data, str)`). -/
def PyVal.isStr : PyVal → Bool
  | .str _ => true
  | _ => false

/-- What one submission of the callable does: hit the `future.result(timeout=...)`
deadline, or complete with a value. -/
inductive OpOutcome where
  | timedOut
  | completed (v : PyVal)
  deriving DecidableEq, Repr

/-- What `execute_with_timeout` hands back, plus the number of times the
callable was submitted to the executor. -/
structure ExecResult where
  value : Option PyVal
  error : Option String
  calls : Nat
  deriving DecidableEq, Repr

/-- The synthetic timeout message `f"The RPC didn\x27t respond in \x7btimeout\x7d."`;
the timeout is rendered the way Python formats the float. -/
def timeoutMsg (timeout : String) : String :=
  "The RPC didn\x27t respond in " ++ timeout ++ "."

/-- `ConditionalTokensContract.execute_with_timeout`: submit the callable once;
on deadline return `(None, synthetic message)`, on a string result return
`(None, the string)`, otherwise `(data, None)`.  Only `op 0` is consulted and
`calls = 1`: the executor never resubmits the callable. -/
def execute_with_timeout (op : Nat → OpOutcome) (timeout : String) : ExecResult :=
  match op 0 with
  | .timedOut => { value := none, error := some (timeoutMsg timeout), calls := 1 }
  | .completed data =>
      match data with
      | .str s => { value := none, error := some s, calls := 1 }
      | d => { value := some d, error := none, calls := 1 }

/-! ## `check_redeemed` (contract.py lines 68-126) -/

/-- What the chain query inside `get_redeem_events` does when it runs:
return the filtered entries, or raise a transport-level read-timeout
(`Urllib3ReadTimeoutError` / `RequestsReadTimeoutError`). -/
inductive RpcOutcome where
  | entries (es : List RedeemEntry)
  | readTimeout
  deriving DecidableEq, Repr

/-- How the whole `get_redeem_events` callable behaves for one submission:
never finish within the deadline, or finish with a query outcome. -/
inductive QueryBehavior where
  | hangs
  | returns (o : RpcOutcome)
  deriving DecidableEq, Repr

/-- The read-timeout diagnostic built inside `get_redeem_events`. -/
def rpcErrorMsg (from_block to_block : Int) : String :=
  "The RPC timed out! This usually happens if the filtering is too wide. " ++
  "The service tried to filter from block " ++ toString from_block ++
  " to " ++ toString to_block ++ ". " ++
  "If this issue persists, please try lowering the \x60EVENT_FILTERING_BATCH_SIZE\x60!"

/-- The inner `get_redeem_events` callable: entries on success, the diagnostic
string on a transport read-timeout. -/
def get_redeem_events (o : RpcOutcome) (from_block to_block : Int) : PyVal :=
  match o with
  | .entries es => .entries es
  | .readTimeout => .str (rpcErrorMsg from_block to_block)

/-- The callable `check_redeemed` submits to the executor, as an invocation
stream (every submission behaves the same way). -/
def redeemOp (b : QueryBehavior) (from_block to_block : Int) : Nat → OpOutcome :=
  fun _ =>
    match b with
    | .hangs => .timedOut
    | .returns o => .completed (get_redeem_events o from_block to_block)

/-- Python-dict insertion on an ordered association list: an existing key keeps
its position and gets the new value, a fresh key is appended. -/
def dictInsert (d : List (String × Int)) (k : String) (v : Int) : List (String × Int) :=
  if d.any (fun p => p.1 = k) then
    d.map (fun p => if p.1 = k then (k, v) else p)
  else
    d ++ [(k, v)]

/-- The key a log entry is recorded under: `condition_id.hex()` when the id is
bytes, the id itself otherwise. -/
def condKeyStr : CondKey → String
  | .bytes b => bytesHex b
  | .str s => s

/-- The body of the loop at contract.py lines 117-124: skip an entry with an
absent conditionId or a non-positive payout, otherwise
`payouts[condition_id] = payout` (hex-encoding a bytes id first). -/
def payoutStep (payouts : List (String × Int)) (e : RedeemEntry) :
    List (String × Int) :=
  match e.conditionId with
  | none => payouts
  | some cid =>
      if 0 < e.payout then dictInsert payouts (condKeyStr cid) e.payout
      else payouts

/-- The fold at contract.py lines 116-124: run the loop body over all entries,
starting from the empty dict. -/
def foldPayouts (entries : List RedeemEntry) : List (String × Int) :=
  entries.foldl payoutStep []

/-- The mapping `check_redeemed` returns: `dict(payouts=...)` or
`dict(error=err)`. -/
inductive CheckRedeemedResult where
  | payouts (m : List (String × Int))
  | error (msg : String)
  deriving DecidableEq, Repr

/-- `ConditionalTokensContract.check_redeemed`: run `get_redeem_events` through
the bounded executor, surface any error as `dict(error=err)`, otherwise fold
the entries into the payouts mapping. -/
def check_redeemed (b : QueryBehavior) (from_block to_block : Int)
    (timeout : String) : CheckRedeemedResult :=
  let r := execute_with_timeout (redeemOp b from_block to_block) timeout
  match r.error with
  | some err => .error err
  | none =>
      match r.value with
      | some (.entries es) => .payouts (foldPayouts es)
      | _ => .payouts []

/-! ## `check_resolved` (contract.py lines 128-141)

The single `payoutDenominator(condition_id).call()` sits inside no
`try`/`except`: a failure of the chain call propagates to the caller as a
raised exception, modelled by `Except.error`. -/

/-- An exception raised by the chain-access client during a contract call. -/
structure ChainFault where
  msg : String
  deriving DecidableEq, Repr

/-- The mapping `check_resolved` returns on the non-raising path:
`dict(resolved=...)` — the body builds no other shape. -/
inductive ResolvedResult where
  | resolved (b : Bool)
  deriving DecidableEq, Repr

/-- `ConditionalTokensContract.check_resolved`: read the payout denominator and
report `resolved=False` iff it is zero; a chain-call fault propagates. -/
def check_resolved (payoutDenominatorCall : Except ChainFault Int) :
    Except ChainFault ResolvedResult := do
  let payout ← payoutDenominatorCall
  if payout = 0 then return .resolved false
  return .resolved true

/-! ## `calculate_condition_id` (contract.py lines 261-280)

`bytes.fromhex(question_id[2:])` can raise `ValueError` (modelled by `none`);
everything else is handed straight to `ledger_api.api.solidity_keccak`, an
external collaborator passed in as a function.  The body contains no input
validation of its own. -/

/-- The mapping `calculate_condition_id` returns. -/
structure ConditionIdResult where
  condition_id : String
  deriving DecidableEq, Repr

/-- `ConditionalTokensContract.calculate_condition_id`: hash
(checksummed oracle, question-id bytes, outcome slot count) and hex the result
(`HexBytes.hex()` carries a `0x` prefix).  `none` models the `ValueError` from
`bytes.fromhex` on a malformed hex body; no other failure path exists. -/
def calculate_condition_id (solidity_keccak : String → List Nat → Int → List Nat)
    (to_checksum : String → String) (oracle_contract : String)
    (question_id : String) (outcome_slot_count : Int) : Option ConditionIdResult :=
  match hexPairs (question_id.drop 2).toList with
  | none => none
  | some qbytes =>
      some { condition_id :=
               "0x" ++ bytesHex (solidity_keccak (to_checksum oracle_contract)
                 qbytes outcome_slot_count) }

/-! ## `build_merge_positions_tx` (contract.py lines 393-420)

`instance.encodeABI(fn_name="mergePositions", args=[...])` is an external
encoder; its input — the function name and the argument list, in order — is
captured symbolically so the assembled call is observable. -/

/-- The argument list handed to `encodeABI` for `mergePositions`, in source
order. -/
structure MergePositionsArgs where
  collateral_token : String
  parent_collection_id : List Nat
  condition_id : List Nat
  partition : List Nat
  amount : Int
  deriving DecidableEq, Repr

/-- The symbolic result of `encodeABI(fn_name="mergePositions", args=[...])`. -/
structure EncodedMergeCall where
  fn_name : String
  args : MergePositionsArgs
  deriving DecidableEq, Repr

/-- The mapping `build_merge_positions_tx` returns: `dict(data=...)`. -/
structure MergeTxResult where
  data : EncodedMergeCall
  deriving DecidableEq, Repr

/-- `ConditionalTokensContract.build_merge_positions_tx`: regenerate the
partition from `outcome_slot_count` via `get_partitions` (no partition is
accepted from the caller) and encode the `mergePositions` call with it. -/
def build_merge_positions_tx (to_checksum : String → String)
    (collateral_token : String) (parent_collection_id condition_id : List Nat)
    (outcome_slot_count : Int) (amount : Int) : MergeTxResult :=
  let partition := get_partitions outcome_slot_count
  { data := { fn_name := "mergePositions"
              args := { collateral_token := to_checksum collateral_token
                        parent_collection_id := parent_collection_id
                        condition_id := condition_id
                        partition := partition
                        amount := amount } } }

/-! ## `get_user_holdings` (contract.py lines 341-391)

The chain reads are external collaborators, bundled in a `ChainView`; each call
the loop body issues is also recorded in an ordered trace so the number and
order of reads is observable. -/

/-- Python `int.from_bytes(bs, "big")`. -/
def intFromBytesBig (bs : List Nat) : Nat :=
  bs.foldl (fun a b => 256 * a + b) 0

/-- The chain-access collaborators `get_user_holdings` consumes. -/
structure ChainView where
  getCollectionId : String → String → Nat → List Nat
  solidityKeccak : String → Nat → List Nat
  balanceOf : String → Nat → Int
  toChecksum : String → String

/-- One chain-client call issued by the holdings loop. -/
inductive ChainCall where
  | collectionCall (parent : String) (cond : String) (indexSet : Nat)
  | keccakCall (collateral : String) (collection : Nat)
  | balanceCall (owner : String) (position : Nat)
  deriving DecidableEq, Repr

/-- `dict(holdings=..., shares=...)`. -/
structure HoldingsResult where
  holdings : List Int
  shares : List Int
  deriving DecidableEq, Repr

/-- One iteration of the `for i in cls.get_partitions(...)` loop: derive the
collection id, derive the position id, read the market balance (holdings) and
the creator balance (shares), appending the four calls to the trace. -/
def holdingsStep (cv : ChainView) (condition_id creator collateral_token market
    parent_collection_id : String) (acc : HoldingsResult × List ChainCall)
    (i : Nat) : HoldingsResult × List ChainCall :=
  let collection_id := intFromBytesBig
    (cv.getCollectionId parent_collection_id condition_id i)
  let position_id := intFromBytesBig
    (cv.solidityKeccak (cv.toChecksum collateral_token) collection_id)
  let h := cv.balanceOf (cv.toChecksum market) position_id
  let s := cv.balanceOf (cv.toChecksum creator) position_id
  ({ holdings := acc.1.holdings ++ [h], shares := acc.1.shares ++ [s] },
   acc.2 ++ [.collectionCall parent_collection_id condition_id i,
             .keccakCall (cv.toChecksum collateral_token) collection_id,
             .balanceCall (cv.toChecksum market) position_id,
             .balanceCall (cv.toChecksum creator) position_id])

/-- `ConditionalTokensContract.get_user_holdings`: iterate the partition in
order, appending one market balance to `holdings` and one creator balance to
`shares` per element; the second component is the ordered trace of chain calls
issued. -/
def get_user_holdings (cv : ChainView) (outcome_slot_count : Int)
    (condition_id creator collateral_token market parent_collection_id : String) :
    HoldingsResult × List ChainCall :=
  (get_partitions outcome_slot_count).foldl
    (holdingsStep cv condition_id creator collateral_token market
      parent_collection_id)
    ({ holdings := [], shares := [] }, [])

/-! ## Spec-side description of the payout fold (for the refinement claim)

`specLastWins` follows the specification's words, not the source: "if the same
conditionId appears multiple times with positive payouts, the last entry
observed in query order wins; entries with zero payout are ignored".  It is
compared against the source-derived `foldPayouts`. -/

/-- First-some combinator on options. -/
def orElseOpt (a b : Option Int) : Option Int :=
  match a with
  | some v => some v
  | none => b

/-- Whether one entry records a value under key `k`: it must carry a
conditionId whose (hex-encoded) key is `k` and a strictly positive payout. -/
def entryHit (e : RedeemEntry) (k : String) : Option Int :=
  match e.conditionId with
  | none => none
  | some cid => if 0 < e.payout ∧ condKeyStr cid = k then some e.payout else none

/-- Spec's description of the final mapping: the value under `k` is the payout
of the last entry in query order that records under `k`, if any. -/
def specLastWins : List RedeemEntry → String → Option Int
  | [], _ => none
  | e :: es, k => orElseOpt (specLastWins es k) (entryHit e k)

/-! ## Helper lemmas -/

theorem orElseOpt_assoc (a b c : Option Int) :
    orElseOpt (orElseOpt a b) c = orElseOpt a (orElseOpt b c) := by
  cases a <;> rfl

theorem lookup_cons_kv (k a : String) (b : Int) (l : List (String × Int)) :
    List.lookup k ((a, b) :: l) = if k = a then some b else List.lookup k l := by
  rw [List.lookup]
  by_cases h : k = a
  · simp [h]
  · have hb : (k == a) = false := beq_eq_false_iff_ne.mpr h
    rw [hb, if_neg h]

theorem lookup_map_upd_self (k : String) (v : Int) :
    ∀ d : List (String × Int), d.any (fun p => p.1 = k) = true →
      List.lookup k (d.map (fun p => if p.1 = k then (k, v) else p)) = some v := by
  intro d
  induction d with
  | nil => simp
  | cons q rest ih =>
      obtain ⟨a, b⟩ := q
      intro hany
      by_cases hq : a = k
      · rw [List.map_cons, if_pos hq, lookup_cons_kv, if_pos rfl]
      · rw [List.map_cons, if_neg hq, lookup_cons_kv,
          if_neg (fun he => hq he.symm)]
        apply ih
        simp only [List.any_cons, Bool.or_eq_true, decide_eq_true_eq] at hany
        rcases hany with h | h
        · exact absurd h hq
        · exact h

theorem lookup_map_upd_ne (k j : String) (v : Int) (hkj : k ≠ j) :
    ∀ d : List (String × Int),
      List.lookup k (d.map (fun p => if p.1 = j then (j, v) else p)) =
        List.lookup k d := by
  intro d
  induction d with
  | nil => simp
  | cons q rest ih =>
      obtain ⟨a, b⟩ := q
      by_cases hq : a = j
      · rw [List.map_cons, if_pos hq, lookup_cons_kv, if_neg hkj, ih,
          lookup_cons_kv, if_neg (fun he => hkj (he.trans hq))]
      · rw [List.map_cons, if_neg hq]
        by_cases hk : k = a
        · rw [lookup_cons_kv, if_pos hk, lookup_cons_kv, if_pos hk]
        · rw [lookup_cons_kv, if_neg hk, ih, lookup_cons_kv, if_neg hk]

theorem lookup_append_single (k : String) (v : Int) :
    ∀ d : List (String × Int), d.any (fun p => p.1 = k) = false →
      List.lookup k (d ++ [(k, v)]) = some v := by
  intro d
  induction d with
  | nil => intro _; rw [List.nil_append, lookup_cons_kv, if_pos rfl]
  | cons q rest ih =>
      obtain ⟨a, b⟩ := q
      intro hany
      simp only [List.any_cons, Bool.or_eq_false_iff,
        decide_eq_false_iff_not] at hany
      rw [List.cons_append, lookup_cons_kv, if_neg (fun he => hany.1 he.symm)]
      exact ih hany.2

theorem lookup_dictInsert_self (d : List (String × Int)) (k : String) (v : Int) :
    List.lookup k (dictInsert d k v) = some v := by
  unfold dictInsert
  by_cases h : d.any (fun p => p.1 = k) = true
  · rw [if_pos h]
    exact lookup_map_upd_self k v d h
  · rw [if_neg h]
    exact lookup_append_single k v d (Bool.eq_false_iff.mpr h)

theorem lookup_dictInsert_ne (d : List (String × Int)) (k j : String) (v : Int)
    (hkj : k ≠ j) : List.lookup k (dictInsert d j v) = List.lookup k d := by
  unfold dictInsert
  by_cases h : d.any (fun p => p.1 = j) = true
  · rw [if_pos h]
    exact lookup_map_upd_ne k j v hkj d
  · rw [if_neg h]
    clear h
    induction d with
    | nil => rw [List.nil_append, lookup_cons_kv, if_neg hkj]
    | cons q rest ih =>
        obtain ⟨a, b⟩ := q
        rw [List.cons_append, lookup_cons_kv, lookup_cons_kv]
        by_cases hk : k = a
        · rw [if_pos hk, if_pos hk]
        · rw [if_neg hk, if_neg hk, ih]

theorem orElseOpt_none (a : Option Int) : orElseOpt a none = a := by
  cases a <;> rfl

theorem lookup_payoutStep (payouts : List (String × Int)) (e : RedeemEntry)
    (k : String) :
    List.lookup k (payoutStep payouts e) =
      orElseOpt (entryHit e k) (List.lookup k payouts) := by
  unfold payoutStep entryHit
  cases e.conditionId with
  | none => rfl
  | some cid =>
      dsimp only
      by_cases hp : 0 < e.payout
      · rw [if_pos hp]
        by_cases hk : condKeyStr cid = k
        · rw [hk, lookup_dictInsert_self, if_pos ⟨hp, rfl⟩]
          rfl
        · rw [lookup_dictInsert_ne payouts k (condKeyStr cid) e.payout
            (fun he => hk he.symm), if_neg (fun hc => hk hc.2)]
          rfl
      · rw [if_neg hp, if_neg (fun hc => hp hc.1)]
        rfl

theorem foldPayouts_go (es : List RedeemEntry) :
    ∀ (acc : List (String × Int)) (k : String),
      List.lookup k (es.foldl payoutStep acc) =
        orElseOpt (specLastWins es k) (List.lookup k acc) := by
  induction es with
  | nil =>
      intro acc k
      rfl
  | cons e es ih =>
      intro acc k
      rw [List.foldl_cons, ih, lookup_payoutStep,
        show specLastWins (e :: es) k =
          orElseOpt (specLastWins es k) (entryHit e k) from rfl,
        orElseOpt_assoc]

/-- The lookup of the source fold agrees with the spec-side last-wins
description on every key. -/
theorem foldPayouts_eq_specLastWins (es : List RedeemEntry) (k : String) :
    List.lookup k (foldPayouts es) = specLastWins es k := by
  rw [foldPayouts, foldPayouts_go es [] k,
    show List.lookup k ([] : List (String × Int)) = none from rfl,
    orElseOpt_none]

/-! ## Bitwise lemmas for the partition OR property -/

theorem one_shiftLeft_eq_pow (x : Nat) : (1 : Nat) <<< x = 2 ^ x := by
  rw [Nat.shiftLeft_eq, one_mul]

theorem two_pow_lor_pred (n : Nat) : 2 ^ n ||| (2 ^ n - 1) = 2 ^ (n + 1) - 1 := by
  apply Nat.eq_of_testBit_eq
  intro i
  rw [Nat.testBit_lor, Nat.testBit_two_pow, Nat.testBit_two_pow_sub_one,
    Nat.testBit_two_pow_sub_one]
  rcases Nat.lt_trichotomy i n with h | h | h
  · have h1 : n ≠ i := Nat.ne_of_gt h
    have h2 : i < n + 1 := Nat.lt_succ_of_lt h
    simp [h, h1, h2]
  · subst h
    simp
  · have h1 : n ≠ i := Nat.ne_of_lt h
    have h2 : ¬i < n := by omega
    have h3 : ¬i < n + 1 := by omega
    simp [h1, h2, h3]

theorem partitions_foldr_lor (n : Nat) :
    ∀ acc : Nat,
      ((List.range n).map (fun x => 1 <<< x)).foldr (fun a b => a ||| b) acc =
        (2 ^ n - 1) ||| acc := by
  induction n with
  | zero =>
      intro acc
      simp
  | succ n ih =>
      intro acc
      rw [List.range_succ, List.map_append, List.foldr_append]
      simp only [List.map_cons, List.map_nil, List.foldr_cons, List.foldr_nil]
      rw [ih, one_shiftLeft_eq_pow, ← Nat.lor_assoc, Nat.lor_comm (2 ^ n - 1),
        two_pow_lor_pred]

/-! ## Characterisation of the holdings loop -/

/-- The position id derived for partition element `i`: hash of the checksummed
collateral token and the collection id, both read big-endian. -/
def positionIdAt (cv : ChainView) (condition_id collateral_token
    parent_collection_id : String) (i : Nat) : Nat :=
  intFromBytesBig (cv.solidityKeccak (cv.toChecksum collateral_token)
    (intFromBytesBig (cv.getCollectionId parent_collection_id condition_id i)))

/-- The four chain calls one loop iteration issues, in order. -/
def holdingsCalls (cv : ChainView) (condition_id creator collateral_token market
    parent_collection_id : String) (i : Nat) : List ChainCall :=
  [.collectionCall parent_collection_id condition_id i,
   .keccakCall (cv.toChecksum collateral_token)
     (intFromBytesBig (cv.getCollectionId parent_collection_id condition_id i)),
   .balanceCall (cv.toChecksum market)
     (positionIdAt cv condition_id collateral_token parent_collection_id i),
   .balanceCall (cv.toChecksum creator)
     (positionIdAt cv condition_id collateral_token parent_collection_id i)]

theorem holdings_foldl (cv : ChainView)
    (condition_id creator collateral_token market parent_collection_id : String) :
    ∀ (l : List Nat) (acc : HoldingsResult × List ChainCall),
      l.foldl (holdingsStep cv condition_id creator collateral_token market
          parent_collection_id) acc =
        ({ holdings := acc.1.holdings ++ l.map (fun i =>
             cv.balanceOf (cv.toChecksum market)
               (positionIdAt cv condition_id collateral_token
                 parent_collection_id i)),
           shares := acc.1.shares ++ l.map (fun i =>
             cv.balanceOf (cv.toChecksum creator)
               (positionIdAt cv condition_id collateral_token
                 parent_collection_id i)) },
         acc.2 ++ l.flatMap (holdingsCalls cv condition_id creator
           collateral_token market parent_collection_id)) := by
  intro l
  induction l with
  | nil =>
      intro acc
      simp
  | cons i l ih =>
      intro acc
      rw [List.foldl_cons, ih]
      simp [holdingsStep, holdingsCalls, positionIdAt, List.flatMap_cons]

theorem countP_flatMap_const {α β : Type} (p : β → Bool) (tf : α → List β)
    (c : Nat) (h : ∀ a, (tf a).countP p = c) :
    ∀ l : List α, (l.flatMap tf).countP p = l.length * c := by
  intro l
  induction l with
  | nil => simp
  | cons a l ih =>
      rw [List.flatMap_cons, List.countP_append, h, ih, List.length_cons]
      ring

/-- Whether a traced call is a collection-id derivation. -/
def isCollectionCall : ChainCall → Bool
  | .collectionCall _ _ _ => true
  | _ => false

/-- Whether a traced call is a position-id (keccak) derivation. -/
def isKeccakCall : ChainCall → Bool
  | .keccakCall _ _ => true
  | _ => false

/-- Whether a traced call is a balance read. -/
def isBalanceCall : ChainCall → Bool
  | .balanceCall _ _ => true
  | _ => false

/-! ## Claim theorems -/

/-- C1: `check_redeemed` folds a successfully returned entry list into a
payouts mapping in which an entry with a strictly positive payout is recorded
under its conditionId (hex-encoded when it is bytes), a zero-payout entry
contributes nothing, and a repeated conditionId keeps the value of the last
positive-payout entry in query order (overwritten, not summed); concretely,
entries for conditionId `0xAA` with payouts 5 and 7 (plus a zero-payout entry)
yield exactly payout 7 under key `"aa"`. -/
theorem check_redeemed_payout_fold_last_wins :
    (∀ (es : List RedeemEntry) (fb tb : Int) (t : String),
        check_redeemed (.returns (.entries es)) fb tb t =
          .payouts (foldPayouts es)) ∧
    (∀ (es : List RedeemEntry) (k : String),
        List.lookup k (foldPayouts es) = specLastWins es k) ∧
    foldPayouts
      [{ conditionId := some (.bytes [0xAA]), payout := 5 },
       { conditionId := some (.bytes [0xAA]), payout := 7 },
       { conditionId := some (.bytes [0xBB]), payout := 0 }] = [("aa", 7)] := by
  refine ⟨fun es fb tb t => rfl, foldPayouts_eq_specLastWins, ?_⟩
  rfl

/-- C2: for every positive `n`, `get_partitions` returns the list
`[1<<0, ..., 1<<(n-1)]`: it has length `n`, its `i`-th element is `2^i`, its
elements are pairwise distinct powers of two, and their bitwise OR is
`2^n - 1`. -/
theorem get_partitions_positive_spec (n : Nat) (_hpos : 0 < n) :
    (get_partitions (n : Int)).length = n ∧
    (∀ i, i < n → (get_partitions (n : Int))[i]? = some (2 ^ i)) ∧
    (get_partitions (n : Int)).Nodup ∧
    (∀ x ∈ get_partitions (n : Int), ∃ k, x = 2 ^ k) ∧
    (get_partitions (n : Int)).foldr (fun a b => a ||| b) 0 = 2 ^ n - 1 := by
  refine ⟨?_, ?_, ?_, ?_, ?_⟩
  · simp [get_partitions]
  · intro i hi
    simp [get_partitions, List.getElem?_map, List.getElem?_range, hi,
      one_shiftLeft_eq_pow]
  · unfold get_partitions
    rw [Int.toNat_natCast]
    apply List.Nodup.map _ (List.nodup_range n)
    intro a b hab
    have hab2 : (1 : Nat) <<< a = 1 <<< b := hab
    rw [one_shiftLeft_eq_pow, one_shiftLeft_eq_pow] at hab2
    exact Nat.pow_right_injective (le_refl 2) hab2
  · intro x hx
    unfold get_partitions at hx
    rw [Int.toNat_natCast] at hx
    obtain ⟨k, _, hk⟩ := List.mem_map.mp hx
    exact ⟨k, by rw [← hk, one_shiftLeft_eq_pow]⟩
  · unfold get_partitions
    rw [Int.toNat_natCast, partitions_foldr_lor n 0]
    simp

/-- C2 witness: the properties at the concrete count 3. -/
theorem get_partitions_positive_spec_witness :
    0 < 3 ∧
    ((get_partitions ((3 : Nat) : Int)).length = 3 ∧
     (∀ i, i < 3 → (get_partitions ((3 : Nat) : Int))[i]? = some (2 ^ i)) ∧
     (get_partitions ((3 : Nat) : Int)).Nodup ∧
     (∀ x ∈ get_partitions ((3 : Nat) : Int), ∃ k, x = 2 ^ k) ∧
     (get_partitions ((3 : Nat) : Int)).foldr (fun a b => a ||| b) 0 =
       2 ^ 3 - 1) :=
  ⟨by decide, get_partitions_positive_spec 3 (by decide)⟩

/-- C3 counterexample: `calculate_condition_id` succeeds (returns a
condition-id mapping) on the inputs the claim says must fail — an
`outcomeSlotCount` of zero with a 32-byte questionId, and a 1-byte questionId —
because the module contains no `InvalidInputError` and performs no validation
(the hash collaborator is stubbed; validation would have to happen before it is
consulted). -/
theorem calculate_condition_id_accepts_invalid_input :
    (calculate_condition_id (fun _ _ _ => List.replicate 32 0) (fun s => s)
      "0x01"
      "0x0000000000000000000000000000000000000000000000000000000000000000"
      0).isSome = true ∧
    (calculate_condition_id (fun _ _ _ => List.replicate 32 0) (fun s => s)
      "0x01" "0x00" 2).isSome = true := by
  constructor <;> rfl

/-- C3 amended: `calculate_condition_id` performs no input validation and can
not fail with an `InvalidInputError` (no such error exists in the module): for
every `outcomeSlotCount` — zero included — and every questionId whose hex body
parses, whatever its byte width, it returns a condition-id mapping built from
the hash call. -/
theorem calculate_condition_id_no_validation
    (keccak : String → List Nat → Int → List Nat) (cs : String → String)
    (oracle qid : String) (n : Int)
    (h : (hexPairs (qid.drop 2).toList).isSome = true) :
    (calculate_condition_id keccak cs oracle qid n).isSome = true := by
  unfold calculate_condition_id
  cases hq : hexPairs (qid.drop 2).toList with
  | none => rw [hq] at h; simp at h
  | some qb => rfl

/-- C3 witness: the amended theorem at a 1-byte questionId and count 0. -/
theorem calculate_condition_id_no_validation_witness :
    (hexPairs (("0x00" : String).drop 2).toList).isSome = true ∧
    (calculate_condition_id (fun _ _ _ => []) (fun s => s) "0x01" "0x00"
      0).isSome = true :=
  ⟨rfl, calculate_condition_id_no_validation (fun _ _ _ => []) (fun s => s)
    "0x01" "0x00" 0 rfl⟩

/-- C4 counterexample: `get_partitions` returns a value — the empty list — at
count 0 and at count -3, instead of failing with an `InvalidInputError` (no
such error exists in the module; `range(count)` is simply empty). -/
theorem get_partitions_nonpositive_returns_value :
    get_partitions 0 = [] ∧ get_partitions (-3) = [] :=
  ⟨rfl, rfl⟩

/-- C4 amended: for every `n ≤ 0`, `get_partitions` does not fail: it returns
the empty list. -/
theorem get_partitions_nonpositive_empty (n : Int) (h : n ≤ 0) :
    get_partitions n = [] := by
  unfold get_partitions
  rw [Int.toNat_of_nonpos h]
  rfl

/-- C4 witness: the amended theorem at the concrete count -3. -/
theorem get_partitions_nonpositive_empty_witness :
    (-3 : Int) ≤ 0 ∧ get_partitions (-3) = [] :=
  ⟨by decide, get_partitions_nonpositive_empty (-3) (by decide)⟩

/-- C5: when the submitted operation hits the deadline, `execute_with_timeout`
returns a nil value together with the synthetic message naming the RPC
operation and the elapsed timeout, and it submits the operation exactly once —
no retry (the result is determined by the first invocation alone and
`calls = 1`). -/
theorem execute_with_timeout_timeout_behavior (op : Nat → OpOutcome)
    (t : String) (h : op 0 = .timedOut) :
    execute_with_timeout op t =
      { value := none, error := some (timeoutMsg t), calls := 1 } := by
  unfold execute_with_timeout
  rw [h]

/-- C5 witness: an operation that always times out, with timeout 0.05. -/
theorem execute_with_timeout_timeout_behavior_witness :
    (fun _ : Nat => OpOutcome.timedOut) 0 = OpOutcome.timedOut ∧
    execute_with_timeout (fun _ => OpOutcome.timedOut) "0.05" =
      { value := none, error := some (timeoutMsg "0.05"), calls := 1 } :=
  ⟨rfl, execute_with_timeout_timeout_behavior (fun _ => OpOutcome.timedOut)
    "0.05" rfl⟩

/-- C6: when the operation completes in time but signals failure as an error
string, `execute_with_timeout` returns that string as the error and a nil
value — never the string as the value. -/
theorem execute_with_timeout_error_string (op : Nat → OpOutcome) (t s : String)
    (h : op 0 = .completed (.str s)) :
    execute_with_timeout op t =
      { value := none, error := some s, calls := 1 } := by
  unfold execute_with_timeout
  rw [h]

/-- C6 witness: an operation returning a transport-failure message. -/
theorem execute_with_timeout_error_string_witness :
    (fun _ : Nat => OpOutcome.completed (PyVal.str "read timeout")) 0 =
      OpOutcome.completed (PyVal.str "read timeout") ∧
    execute_with_timeout (fun _ => OpOutcome.completed (PyVal.str "read timeout"))
      "300.0" =
      { value := none, error := some "read timeout", calls := 1 } :=
  ⟨rfl, execute_with_timeout_error_string
    (fun _ => OpOutcome.completed (PyVal.str "read timeout")) "300.0"
    "read timeout" rfl⟩

/-- C10 (implicit): a completed result is surfaced as a nil value exactly when
it is a string — every string-typed result is unconditionally routed to the
error slot, so a successful operation can never deliver a string value through
the executor, while every non-string result is returned as the value with no
error. -/
theorem execute_with_timeout_string_result_is_error (op : Nat → OpOutcome)
    (t : String) (v : PyVal) (h : op 0 = .completed v) :
    ((execute_with_timeout op t).value = none ↔ v.isStr = true) ∧
    (∀ s, v = .str s → execute_with_timeout op t =
      { value := none, error := some s, calls := 1 }) ∧
    (v.isStr = false → execute_with_timeout op t =
      { value := some v, error := none, calls := 1 }) := by
  unfold execute_with_timeout
  rw [h]
  cases v <;> simp [PyVal.isStr]

/-- C10 witness: a string result `"oops"` comes back as the error. -/
theorem execute_with_timeout_string_result_is_error_witness :
    (fun _ : Nat => OpOutcome.completed (PyVal.str "oops")) 0 =
      OpOutcome.completed (PyVal.str "oops") ∧
    (((execute_with_timeout (fun _ => OpOutcome.completed (PyVal.str "oops"))
        "1.0").value = none ↔ (PyVal.str "oops").isStr = true) ∧
     (∀ s, PyVal.str "oops" = .str s →
        execute_with_timeout (fun _ => OpOutcome.completed (PyVal.str "oops"))
          "1.0" = { value := none, error := some s, calls := 1 }) ∧
     ((PyVal.str "oops").isStr = false →
        execute_with_timeout (fun _ => OpOutcome.completed (PyVal.str "oops"))
          "1.0" =
          { value := some (PyVal.str "oops"), error := none, calls := 1 })) :=
  ⟨rfl, execute_with_timeout_string_result_is_error
    (fun _ => OpOutcome.completed (PyVal.str "oops")) "1.0"
    (PyVal.str "oops") rfl⟩

/-- C7 counterexample: `check_resolved` does not convert a chain-call failure
into a mapping with an error field — the fault propagates to the caller
unchanged (`payoutDenominator(...).call()` sits in no try/except), refuting the
claim that no operation raises a fault. -/
theorem check_resolved_fault_propagates :
    check_resolved (Except.error { msg := "read timeout" }) =
      Except.error { msg := "read timeout" } := rfl

/-- C7 amended: `check_redeemed` always returns a mapping with either a
payouts field or a single error field — an executor timeout yields the
synthetic RPC message and a transport read-timeout yields the
block-range/batch-size diagnostic — but `check_resolved` propagates chain-call
faults to the caller instead of converting them to the error shape. -/
theorem uniform_error_shape_amended :
    (∀ (b : QueryBehavior) (fb tb : Int) (t : String),
        (∃ m, check_redeemed b fb tb t = .payouts m) ∨
        (∃ msg, check_redeemed b fb tb t = .error msg)) ∧
    (∀ (fb tb : Int) (t : String),
        check_redeemed .hangs fb tb t = .error (timeoutMsg t)) ∧
    (∀ (fb tb : Int) (t : String),
        check_redeemed (.returns .readTimeout) fb tb t =
          .error (rpcErrorMsg fb tb)) ∧
    (∀ e : ChainFault, check_resolved (Except.error e) = Except.error e) := by
  refine ⟨?_, fun fb tb t => rfl, fun fb tb t => rfl, fun e => rfl⟩
  intro b fb tb t
  cases b with
  | hangs => exact Or.inr ⟨timeoutMsg t, rfl⟩
  | returns o =>
      cases o with
      | entries es => exact Or.inl ⟨foldPayouts es, rfl⟩
      | readTimeout => exact Or.inr ⟨rpcErrorMsg fb tb, rfl⟩

/-- C8: `build_merge_positions_tx` encodes `mergePositions` with a partition
recomputed from `outcome_slot_count` alone via `get_partitions` — the caller
supplies no partition and every other argument leaves it unchanged — and for
`outcome_slot_count = 3` the encoded partition is exactly `[1, 2, 4]`,
ascending powers of two. -/
theorem build_merge_positions_tx_regenerates_partition
    (to_checksum : String → String) (ct : String) (pc ci : List Nat)
    (n : Int) (amount : Int) :
    (build_merge_positions_tx to_checksum ct pc ci n amount).data.args.partition
      = get_partitions n ∧
    (build_merge_positions_tx to_checksum ct pc ci n amount).data.fn_name =
      "mergePositions" ∧
    (build_merge_positions_tx to_checksum ct pc ci 3 amount).data.args.partition
      = [1, 2, 4] :=
  ⟨rfl, rfl, rfl⟩

theorem get_user_holdings_characterisation (cv : ChainView) (count : Int)
    (cond cr ct mkt par : String) :
    get_user_holdings cv count cond cr ct mkt par =
      ({ holdings := (get_partitions count).map (fun i =>
           cv.balanceOf (cv.toChecksum mkt) (positionIdAt cv cond ct par i)),
         shares := (get_partitions count).map (fun i =>
           cv.balanceOf (cv.toChecksum cr) (positionIdAt cv cond ct par i)) },
       (get_partitions count).flatMap (holdingsCalls cv cond cr ct mkt par)) := by
  unfold get_user_holdings
  rw [holdings_foldl]
  simp

/-- C9: `get_user_holdings` iterates the partition in order, issuing per
element one collection-id derivation, one position-id (keccak) derivation and
two balance reads (market then creator) — the trace is exactly the
concatenation of those four-call blocks over the partition — and returns two
ordered sequences `holdings` and `shares`, each of length `n`; at `n = 2` this
is exactly 2 collection-id derivations, 2 position-id derivations, 4 balance
reads and two length-2 sequences. -/
theorem get_user_holdings_calls_and_lengths (cv : ChainView) (n : Nat)
    (cond cr ct mkt par : String) :
    ((get_user_holdings cv (n : Int) cond cr ct mkt par).1.holdings.length = n ∧
     (get_user_holdings cv (n : Int) cond cr ct mkt par).1.shares.length = n ∧
     (get_user_holdings cv (n : Int) cond cr ct mkt par).2 =
       (get_partitions (n : Int)).flatMap
         (holdingsCalls cv cond cr ct mkt par) ∧
     ((get_user_holdings cv (n : Int) cond cr ct mkt par).2.countP
       isCollectionCall = n) ∧
     ((get_user_holdings cv (n : Int) cond cr ct mkt par).2.countP
       isKeccakCall = n) ∧
     ((get_user_holdings cv (n : Int) cond cr ct mkt par).2.countP
       isBalanceCall = 2 * n)) ∧
    ((get_user_holdings cv (2 : Int) cond cr ct mkt par).1.holdings.length = 2 ∧
     (get_user_holdings cv (2 : Int) cond cr ct mkt par).1.shares.length = 2 ∧
     ((get_user_holdings cv (2 : Int) cond cr ct mkt par).2.countP
       isCollectionCall = 2) ∧
     ((get_user_holdings cv (2 : Int) cond cr ct mkt par).2.countP
       isKeccakCall = 2) ∧
     ((get_user_holdings cv (2 : Int) cond cr ct mkt par).2.countP
       isBalanceCall = 4)) := by
  have key : ∀ m : Nat,
      (get_user_holdings cv (m : Int) cond cr ct mkt par).1.holdings.length = m ∧
      (get_user_holdings cv (m : Int) cond cr ct mkt par).1.shares.length = m ∧
      (get_user_holdings cv (m : Int) cond cr ct mkt par).2 =
        (get_partitions (m : Int)).flatMap
          (holdingsCalls cv cond cr ct mkt par) ∧
      ((get_user_holdings cv (m : Int) cond cr ct mkt par).2.countP
        isCollectionCall = m) ∧
      ((get_user_holdings cv (m : Int) cond cr ct mkt par).2.countP
        isKeccakCall = m) ∧
      ((get_user_holdings cv (m : Int) cond cr ct mkt par).2.countP
        isBalanceCall = 2 * m) := by
    intro m
    rw [get_user_holdings_characterisation]
    refine ⟨?_, ?_, rfl, ?_, ?_, ?_⟩
    · simp [get_partitions]
    · simp [get_partitions]
    · rw [countP_flatMap_const isCollectionCall
        (holdingsCalls cv cond cr ct mkt par) 1 (fun i => rfl)]
      simp [get_partitions]
    · rw [countP_flatMap_const isKeccakCall
        (holdingsCalls cv cond cr ct mkt par) 1 (fun i => rfl)]
      simp [get_partitions]
    · rw [countP_flatMap_const isBalanceCall
        (holdingsCalls cv cond cr ct mkt par) 2 (fun i => rfl)]
      simp [get_partitions, Nat.mul_comm]
  refine ⟨key n, ?_⟩
  have k2 := key 2
  exact ⟨k2.1, k2.2.1, k2.2.2.2.1, k2.2.2.2.2.1, k2.2.2.2.2.2⟩

end ConditionalTokens
